import Mathlib

/-!
Shallow embedding of the `ipchk` host-liveness sweeper (`src/main.rs`).

Pure data flow is translated directly; the external collaborators
(`std`'s address parser used by `parse_ip`, and the operating system
executing the `ping` process / the ICMP API) are abstracted as function
parameters, exactly as the specification treats them (capability
contracts).  Machine integers (`u32` addresses) are `Nat` with explicit
`% 2^32` where the source uses wrapping arithmetic.
-/

namespace Ipchk

/-- An IPv4 address as its four octets (`Ipv4Addr::octets`). -/
structure Ipv4Addr where
  a : Fin 256
  b : Fin 256
  c : Fin 256
  d : Fin 256
deriving DecidableEq, Repr

/-- A parsed IP address (`std::net::IpAddr`); the program never inspects
the IPv6 payload, so it is omitted. -/
inductive IpAddr where
  | V4 : Ipv4Addr → IpAddr
  | V6 : IpAddr
deriving DecidableEq, Repr

/-- `PingResult { msg, sort_key }` (main.rs lines 14-18); `sort_key` is a
`u32`, kept as `Nat` (every value stored is `0` or a `v4_key`, both `< 2^32`). -/
structure PingResult where
  msg : String
  sort_key : Nat
deriving DecidableEq, Repr

/-- `v4_key` (main.rs lines 23-25): `u32::from_be_bytes(ip.octets())`. -/
def v4_key (ip : Ipv4Addr) : Nat :=
  ((ip.a.val * 256 + ip.b.val) * 256 + ip.c.val) * 256 + ip.d.val

/-- `Ipv4Addr::from(u32_value.to_be_bytes())`: split a `u32` into big-endian
octets (used by the range iterator, main.rs line 275). -/
def Ipv4Addr.ofU32 (n : Nat) : Ipv4Addr :=
  ⟨⟨n / 2 ^ 24 % 256, Nat.mod_lt _ (by omega)⟩,
   ⟨n / 2 ^ 16 % 256, Nat.mod_lt _ (by omega)⟩,
   ⟨n / 2 ^ 8 % 256, Nat.mod_lt _ (by omega)⟩,
   ⟨n % 256, Nat.mod_lt _ (by omega)⟩⟩

/-- `std::time::Duration`, reduced to the millisecond payload the program
uses (`Duration::from_millis` at main.rs line 290). -/
structure Duration where
  millis : Nat
deriving DecidableEq, Repr

/-- `Duration::from_millis`. -/
def Duration.from_millis (ms : Nat) : Duration := ⟨ms⟩

/-- `Duration::as_secs`: whole seconds, truncating. -/
def Duration.as_secs (d : Duration) : Nat := d.millis / 1000

/-! ## The probing capability (main.rs lines 36-61, 64-103) -/

/-- The argument vector handed to the system `ping` utility on a
non-macOS unix platform (main.rs lines 39-59): no-DNS flag, attempt
count, per-reply wait `-W` in whole seconds `timeout.as_secs().max(1)`,
then the target address string. -/
def ping_unix_args (ip : String) (timeout : Duration) (count : Nat) : List String :=
  ["-n", "-c", toString count, "-W", toString (max timeout.as_secs 1), ip]

/-- `ping_unix_cmd` (main.rs lines 36-61).  `os` is the operating system:
given the argument vector it returns `Command::status()`'s outcome —
`.error ()` for a spawn failure (binary missing, permission denied),
`.ok b` for an exited process with success flag `b`.  The source returns
`matches!(status.as_ref().map(|s| s.success()), Ok(true))`. -/
def ping_unix_cmd (os : List String → Except Unit Bool)
    (ip : String) (timeout : Duration) (count : Nat) : Bool :=
  match os (ping_unix_args ip timeout count) with
  | .ok true => true
  | _ => false

/-- `ping_windows_icmp` (main.rs lines 64-103).  `createOk` is whether
`IcmpCreateFile` returned a valid handle; `echo i` is whether the `i`-th
`IcmpSendEcho` call received a reply.  The loop runs `count.max(1)` tries
and short-circuits on the first success. -/
def ping_windows_icmp (createOk : Bool) (echo : Nat → Bool) (count : Nat) : Bool :=
  if createOk = false then false
  else (List.range (max count 1)).any echo

/-- `ping_one` (main.rs lines 105-147), non-windows build.  `parse` is
`std`'s `IpAddr` parser (`parse_ip`, an external collaborator), `os` the
operating system as in `ping_unix_cmd`.  Returns the list of `PingResult`
values sent on the channel (each `tx.send` appends one) together with a
flag recording whether the reachability capability was invoked. -/
def ping_one (parse : String → Option IpAddr) (os : List String → Except Unit Bool)
    (ip_str : String) (timeout : Duration) (count : Nat) : List PingResult × Bool :=
  match parse ip_str with
  | none =>
      ([{ msg := "\x1b[0m" ++ ip_str ++ "\x1b[0m is \x1b[1m\x1b[31minvalid\x1b[0m",
          sort_key := 0 }], false)
  | some .V6 =>
      ([{ msg := "\x1b[0m" ++ ip_str ++ "\x1b[0m is \x1b[33mIPv6 currently unsupported\x1b[0m",
          sort_key := 0 }], false)
  | some (.V4 v4) =>
      let up := ping_unix_cmd os ip_str timeout count
      ([{ msg := if up then "\x1b[1m" ++ ip_str ++ "\x1b[0m is \x1b[1m\x1b[32mup\x1b[0m"
            else "\x1b[0m" ++ ip_str ++ "\x1b[0m is \x1b[1m\x1b[31mdown\x1b[0m",
          sort_key := v4_key v4 }], true)

/-! ## The inclusive range iterator (main.rs lines 255-279) -/

/-- `IpRange { cur, end }` (main.rs lines 255-258); `end` is a Lean
keyword, so the field is `end_`. -/
structure IpRange where
  cur : Nat
  end_ : Nat
deriving DecidableEq, Repr

/-- `IpRange::new` (main.rs lines 260-267): convert both endpoints to
their big-endian numeric value and swap so that `cur ≤ end_`. -/
def IpRange.new (a b : Ipv4Addr) : IpRange :=
  let lo := v4_key a
  let hi := v4_key b
  if lo > hi then { cur := hi, end_ := lo } else { cur := lo, end_ := hi }

/-- `Iterator::next` for `IpRange` (main.rs lines 271-278): emit `cur` as
an address and advance with `u32::wrapping_add(1)`, modelled as
`(cur + 1) % 2^32`. -/
def IpRange.next (r : IpRange) : Option (Ipv4Addr × IpRange) :=
  if r.cur > r.end_ then none
  else some (Ipv4Addr.ofU32 r.cur, { r with cur := (r.cur + 1) % 2 ^ 32 })

/-- Drive the iterator for at most `fuel` steps, collecting the emitted
addresses (the observable prefix of the iterator's output stream). -/
def IpRange.takeN : Nat → IpRange → List Ipv4Addr
  | 0, _ => []
  | fuel + 1, r =>
      match r.next with
      | none => []
      | some (ip, r') => ip :: IpRange.takeN fuel r'

/-! ## Batch scheduling and result collection (main.rs lines 296-351) -/

/-- The wave-forming loop of `main` (main.rs lines 311-324 / 327-340):
repeatedly take up to `c` targets from the sequence; stop when a formed
batch is empty.  Each produced wave is handed to `spawn_batch`, which
joins every thread before returning, so waves are processed sequentially
(the synchronous barrier of the spec). -/
def batches {α : Type} (c : Nat) (l : List α) : List (List α) :=
  if h : (l.take c).isEmpty = true then []
  else l.take c :: batches c (l.drop c)
termination_by l.length
decreasing_by
  have hc : c ≠ 0 := by intro e; subst e; simp at h
  have hl : l ≠ [] := by intro e; subst e; simp at h
  have hpos : 0 < l.length := List.length_pos.mpr hl
  simp only [List.length_drop]
  omega

/-- All `PingResult` values sent on the channel over a whole run: one
`ping_one` call per target, in some interleaving; this is their multiset
as a list in target order. -/
def allSends (parse : String → Option IpAddr) (os : List String → Except Unit Bool)
    (timeout : Duration) (count : Nat) (targets : List String) : List PingResult :=
  (targets.map (fun ip => (ping_one parse os ip timeout count).1)).flatten

/-- The comparison closure of `results.sort_by(|a, b| a.sort_key.cmp(&b.sort_key))`
(main.rs line 348). -/
def keyLE (x y : PingResult) : Bool :=
  decide (x.sort_key ≤ y.sort_key)

/-- The collector's final sort (main.rs line 348).  Rust's `sort_by` is a
stable ascending sort; it is modelled by the stable `List.mergeSort`. -/
def sortResults (rs : List PingResult) : List PingResult :=
  rs.mergeSort keyLE

/-! ## Command-line parsing (main.rs lines 10-12, 151-251, 281-288) -/

def DEFAULT_TIMEOUT_MS : Nat := 2000

def DEFAULT_COUNT : Nat := 4

def DEFAULT_CONCURRENCY : Nat := 128

/-- The value bound of `u64` (and of `usize` on 64-bit targets). -/
def U64_BOUND : Nat := 2 ^ 64

/-- The value bound of `u32`. -/
def U32_BOUND : Nat := 2 ^ 32

/-- `str::starts_with` on a string prefix. -/
def starts_with (s pre : String) : Bool :=
  pre.data.isPrefixOf s.data

/-- Rust's `FromStr` for an unsigned integer of upper bound `bound`
(`2^64` for `u64`/`usize`, `2^32` for `u32`): an optional leading `+`,
then one or more decimal digits, the value within range. -/
def parseRustUInt (bound : Nat) (s : String) : Option Nat :=
  let cs := match s.data with
    | '+' :: rest => rest
    | cs => cs
  if cs.isEmpty then none
  else if cs.all (·.isDigit) then
    let v := cs.foldl (fun acc c => acc * 10 + (c.toNat - 48)) 0
    if v < bound then some v else none
  else none

/-- One octet group of Rust's `Ipv4Addr` grammar
(`core::net::Parser::read_number` with radix 10, at most 3 digits, no
zero prefix, value a `u8`): consume the maximal digit run, then validate. -/
def readOctet (cs : List Char) : Option (Nat × List Char) :=
  let ds := cs.takeWhile (·.isDigit)
  let rest := cs.dropWhile (·.isDigit)
  if ds.length = 0 ∨ 3 < ds.length then none
  else if 1 < ds.length ∧ ds.head? = some '0' then none
  else
    let v := ds.foldl (fun acc c => acc * 10 + (c.toNat - 48)) 0
    if 255 < v then none else some (v, rest)

/-- Rust's `Ipv4Addr::from_str`: exactly four dot-separated octet groups
consuming the whole string. -/
def parseIpv4 (s : String) : Option Ipv4Addr :=
  match readOctet s.data with
  | some (a, '.' :: r1) =>
    match readOctet r1 with
    | some (b, '.' :: r2) =>
      match readOctet r2 with
      | some (c, '.' :: r3) =>
        match readOctet r3 with
        | some (d, []) =>
          if ha : a < 256 then
            if hb : b < 256 then
              if hc : c < 256 then
                if hd : d < 256 then
                  some ⟨⟨a, ha⟩, ⟨b, hb⟩, ⟨c, hc⟩, ⟨d, hd⟩⟩
                else none
              else none
            else none
          else none
        | _ => none
      | _ => none
    | _ => none
  | _ => none

/-- `usage` (main.rs lines 160-182) with the defaults interpolated. -/
def usage (program : String) : String :=
  "Usage:\n  " ++ program ++ " <IP1> <IP2> ...                       # ping positional addresses\n  "
    ++ program ++ " -r <start_ipv4> <end_ipv4>            # ping inclusive IPv4 range\n\nOptions:\n"
    ++ "  -r, --range            Upper- and lower-limit IPv4 addresses (inclusive)\n"
    ++ "  -t, --timeout          Per-probe timeout in milliseconds (default: 2000)\n"
    ++ "  -n, --count            Probes per host; succeed on first reply (default: 4)\n"
    ++ "  -c, --concurrency      Max simultaneous hosts in flight (default: 128)\n"
    ++ "  -h, --help             Show this help\n\nExamples:\n  "
    ++ program ++ " 192.168.1.1 192.168.1.2 1.1.1.1\n  "
    ++ program ++ " -r 172.16.0.1 172.16.1.254 -t 750 -n 3 -c 256\n"

/-- `Args` (main.rs lines 151-158). -/
structure Args where
  range : Option (Ipv4Addr × Ipv4Addr)
  timeout_ms : Nat
  count : Nat
  concurrency : Nat
  ips : List String
deriving DecidableEq, Repr

/-- The command line as `pico_args` exposes it to `parse_args`: whether
`-h, --help` and `-r, --range` occur, the raw value string following each
numeric option when present, the remaining free arguments, and `argv[0]`. -/
structure CliInput where
  help : Bool
  timeout_arg : Option String
  count_arg : Option String
  concurrency_arg : Option String
  range_flag : Bool
  free : List String
  program : String

/-- `Arguments::opt_value_from_str` followed by the source's
`map_err(|e| format!("--flag: {e}"))`: absent flag yields `none`, a value
that fails the `FromStr` parse yields the flag-tagged error (the library's
error display text is abbreviated). -/
def opt_value_from_str (bound : Nat) (flagName : String) (arg : Option String) :
    Except String (Option Nat) :=
  match arg with
  | none => .ok none
  | some s =>
    match parseRustUInt bound s with
    | some v => .ok (some v)
    | none => .error (flagName ++ ": invalid number")

/-- `parse_args` (main.rs lines 184-251): help first, then the three
numeric options in source order (each `?` propagates its error), then
range-mode versus list-mode handling of the free arguments. -/
def parse_args (input : CliInput) : Except String Args :=
  if input.help then .error (usage input.program)
  else
    match opt_value_from_str U64_BOUND "--timeout" input.timeout_arg with
    | .error e => .error e
    | .ok tmo =>
      match opt_value_from_str U32_BOUND "--count" input.count_arg with
      | .error e => .error e
      | .ok cnt =>
        match opt_value_from_str U64_BOUND "--concurrency" input.concurrency_arg with
        | .error e => .error e
        | .ok conc =>
          let timeout_ms := tmo.getD DEFAULT_TIMEOUT_MS
          let count := max (cnt.getD DEFAULT_COUNT) 1
          let concurrency := max (conc.getD DEFAULT_CONCURRENCY) 1
          if input.range_flag then
            match input.free with
            | [start_str, end_str] =>
              match parseIpv4 start_str with
              | none => .error ("range: start must be IPv4: " ++ start_str)
              | some start =>
                match parseIpv4 end_str with
                | none => .error ("range: end must be IPv4: " ++ end_str)
                | some end_ =>
                  .ok { range := some (start, end_), timeout_ms := timeout_ms,
                        count := count, concurrency := concurrency, ips := [] }
            | _ => .error "Usage: ipchk -r <start_ipv4> <end_ipv4>"
          else
            if input.free.isEmpty then .error (usage input.program)
            else .ok { range := none, timeout_ms := timeout_ms, count := count,
                       concurrency := concurrency, ips := input.free }

/-- `main`'s exit-code decision on a `parse_args` error (main.rs line 286):
`exit(if msg.starts_with("Usage:") { 0 } else { 2 })`. -/
def exitCode (msg : String) : Nat :=
  if starts_with msg "Usage:" then 0 else 2

/-- The process exit code of a run: the error branch's code, or `0` on
normal completion (main.rs lines 281-352 fall through to a normal exit). -/
def mainExit (input : CliInput) : Nat :=
  match parse_args input with
  | .error msg => exitCode msg
  | .ok _ => 0

/-! ## Helper lemmas -/

open List

theorem keyLE_trans : ∀ (x y z : PingResult), keyLE x y → keyLE y z → keyLE x z := by
  intro x y z hxy hyz
  simp only [keyLE, decide_eq_true_eq] at *
  omega

theorem keyLE_total : ∀ (x y : PingResult), keyLE x y || keyLE y x := by
  intro x y
  simp only [keyLE, Bool.or_eq_true, decide_eq_true_eq]
  omega

/-- Each `ping_one` call sends exactly one `PingResult`, whatever the
parse outcome and probe result. -/
theorem ping_one_length (parse : String → Option IpAddr) (os : List String → Except Unit Bool)
    (ip : String) (t : Duration) (c : Nat) :
    ((ping_one parse os ip t c).1).length = 1 := by
  cases h : parse ip with
  | none => simp [ping_one, h]
  | some v =>
    cases v with
    | V4 v4 => simp [ping_one, h]
    | V6 => simp [ping_one, h]

theorem allSends_length (parse : String → Option IpAddr) (os : List String → Except Unit Bool)
    (t : Duration) (c : Nat) (targets : List String) :
    (allSends parse os t c targets).length = targets.length := by
  induction targets with
  | nil => rfl
  | cons hd tl ih =>
    simp only [allSends, List.map_cons, List.flatten_cons, List.length_append,
      List.length_cons]
    rw [ping_one_length]
    simp only [allSends] at ih
    omega

theorem batches_nil {α : Type} (c : Nat) : batches c ([] : List α) = [] := by
  rw [batches]
  simp

theorem batches_cons {α : Type} (c : Nat) (l : List α) (hc : 1 ≤ c) (hl : l ≠ []) :
    batches c l = l.take c :: batches c (l.drop c) := by
  rw [batches]
  have : (l.take c).isEmpty = false := by
    cases l with
    | nil => exact absurd rfl hl
    | cons a as =>
      cases c with
      | zero => omega
      | succ m => simp [List.take]
  simp [this]

theorem batches_flatten_of_le {α : Type} (c : Nat) (hc : 1 ≤ c) :
    ∀ (n : Nat) (l : List α), l.length ≤ n → (batches c l).flatten = l := by
  intro n
  induction n with
  | zero =>
    intro l hl
    have : l = [] := by
      cases l with
      | nil => rfl
      | cons a as => simp at hl
    subst this
    rw [batches_nil]
    rfl
  | succ m ih =>
    intro l hl
    cases l with
    | nil => rw [batches_nil]; rfl
    | cons a as =>
      rw [batches_cons c _ hc (by simp)]
      rw [List.flatten_cons]
      rw [ih ((a :: as).drop c)
        (by simp only [List.length_drop, List.length_cons] at hl ⊢; omega)]
      exact List.take_append_drop c _

theorem batches_wave_bounds {α : Type} (c : Nat) (hc : 1 ≤ c) :
    ∀ (n : Nat) (l : List α), l.length ≤ n →
      ∀ w ∈ batches c l, w ≠ [] ∧ w.length ≤ c := by
  intro n
  induction n with
  | zero =>
    intro l hl w hw
    have : l = [] := by
      cases l with
      | nil => rfl
      | cons a as => simp at hl
    subst this
    rw [batches_nil] at hw
    simp at hw
  | succ m ih =>
    intro l hl w hw
    cases l with
    | nil => rw [batches_nil] at hw; simp at hw
    | cons a as =>
      rw [batches_cons c _ hc (by simp)] at hw
      rcases List.mem_cons.mp hw with h | h
      · subst h
        constructor
        · cases c with
          | zero => omega
          | succ k => simp [List.take]
        · exact List.length_take_le c (a :: as)
      · refine ih ((a :: as).drop c) ?_ w h
        simp only [List.length_drop, List.length_cons] at hl ⊢
        omega

theorem batches_full_waves {α : Type} (c : Nat) (hc : 1 ≤ c) :
    ∀ (n : Nat) (l : List α), l.length ≤ n →
      ∀ i w, i + 1 < (batches c l).length → (batches c l)[i]? = some w →
        w.length = c := by
  intro n
  induction n with
  | zero =>
    intro l hl i w hi _
    have : l = [] := by
      cases l with
      | nil => rfl
      | cons a as => simp at hl
    subst this
    rw [batches_nil] at hi
    simp at hi
  | succ m ih =>
    intro l hl i w hi hw
    cases l with
    | nil => rw [batches_nil] at hi; simp at hi
    | cons a as =>
      have hb := batches_cons c (a :: as) hc (by simp)
      rw [hb] at hi hw
      cases i with
      | zero =>
        simp only [List.getElem?_cons_zero, Option.some.injEq] at hw
        subst hw
        have hdrop : (a :: as).drop c ≠ [] := by
          intro he
          rw [he, batches_nil] at hi
          simp at hi
        have hlt : c < (a :: as).length := by
          by_contra hcon
          push_neg at hcon
          exact hdrop (List.drop_eq_nil_of_le hcon)
        simp only [List.length_take]
        omega
      | succ j =>
        simp only [List.getElem?_cons_succ] at hw
        simp only [List.length_cons] at hi
        refine ih ((a :: as).drop c) ?_ j w (by omega) hw
        simp only [List.length_drop, List.length_cons] at hl ⊢
        omega

/-- Once the cursor has passed the end, the iterator emits nothing. -/
theorem takeN_exhausted (fuel : Nat) (r : IpRange) (h : r.end_ < r.cur) :
    IpRange.takeN fuel r = [] := by
  cases fuel with
  | zero => rfl
  | succ m =>
    simp only [IpRange.takeN, IpRange.next]
    rw [if_pos (by omega)]

/-- The iterator over `[lo, hi]` with `hi` strictly below `u32::MAX`
enumerates exactly the ascending numeric interval, given enough fuel. -/
theorem takeN_eq_range' :
    ∀ (fuel lo hi : Nat), lo ≤ hi → hi < 2 ^ 32 - 1 → hi - lo + 1 ≤ fuel →
      IpRange.takeN fuel { cur := lo, end_ := hi } =
        (List.range' lo (hi - lo + 1)).map Ipv4Addr.ofU32 := by
  intro fuel
  induction fuel with
  | zero => intro lo hi _ _ hf; omega
  | succ m ih =>
    intro lo hi hle hhi hf
    have hnot : ¬ (lo > hi) := by omega
    simp only [IpRange.takeN, IpRange.next, hnot, if_false]
    have hmod : (lo + 1) % 2 ^ 32 = lo + 1 := Nat.mod_eq_of_lt (by omega)
    rw [hmod]
    rcases Nat.lt_or_ge lo hi with hlt | hge
    · have hn : hi - lo + 1 = (hi - (lo + 1) + 1) + 1 := by omega
      have hr : List.range' lo (hi - lo + 1) = lo :: List.range' (lo + 1) (hi - (lo + 1) + 1) := by
        rw [hn, List.range'_succ]
      rw [hr, List.map_cons, ih (lo + 1) hi (by omega) hhi (by omega)]
    · have heq : lo = hi := by omega
      subst heq
      rw [takeN_exhausted m _ (Nat.lt_succ_self lo)]
      have hone : lo - lo + 1 = 1 := by omega
      rw [hone]
      simp

/-- The range whose `end_` is `u32::MAX` never exhausts: the wrapping
increment always re-enters `[0, end_]`. -/
theorem takeN_maxed (n : Nat) : ∀ cur, cur < 2 ^ 32 →
    (IpRange.takeN n { cur := cur, end_ := 2 ^ 32 - 1 }).length = n := by
  induction n with
  | zero => intro cur _; rfl
  | succ m ih =>
    intro cur hcur
    have hle : ¬ (cur > 2 ^ 32 - 1) := by omega
    simp only [IpRange.takeN, IpRange.next, hle, if_false, List.length_cons]
    rw [ih ((cur + 1) % 2 ^ 32) (Nat.mod_lt _ (by omega))]

theorem v4_key_lt (ip : Ipv4Addr) : v4_key ip < 2 ^ 32 := by
  have ha := ip.a.isLt
  have hb := ip.b.isLt
  have hc := ip.c.isLt
  have hd := ip.d.isLt
  simp only [v4_key]
  omega

theorem IpRange.new_comm (x y : Ipv4Addr) : IpRange.new x y = IpRange.new y x := by
  simp only [IpRange.new]
  rcases Nat.lt_trichotomy (v4_key x) (v4_key y) with h | h | h
  · rw [if_neg (by omega), if_pos (by omega)]
  · rw [h]
  · rw [if_pos (by omega), if_neg (by omega)]

theorem IpRange.new_eq (x y : Ipv4Addr) :
    IpRange.new x y =
      { cur := min (v4_key x) (v4_key y), end_ := max (v4_key x) (v4_key y) } := by
  simp only [IpRange.new]
  rcases Nat.lt_or_ge (v4_key y) (v4_key x) with h | h
  · rw [if_pos (by omega)]
    simp only [IpRange.mk.injEq]
    omega
  · rw [if_neg (by omega)]
    simp only [IpRange.mk.injEq]
    omega

/-- Appending to a string keeps an already-established prefix. -/
theorem prefix_data_append (u : List Char) (x y : String) (h : u <+: x.data) :
    u <+: (x ++ y).data := by
  rw [String.data_append]
  exact h.trans (List.prefix_append _ _)

theorem starts_with_usage (p : String) : starts_with (usage p) "Usage:" = true := by
  unfold starts_with usage
  rw [List.isPrefixOf_iff_prefix]
  repeat apply prefix_data_append
  decide

theorem starts_with_append_false (pre s : String)
    (h : ¬ ("Usage:".data <+: pre.data))
    (hlen : ("Usage:".data).length ≤ pre.data.length) :
    starts_with (pre ++ s) "Usage:" = false := by
  unfold starts_with
  rw [Bool.eq_false_iff]
  intro htrue
  rw [List.isPrefixOf_iff_prefix, String.data_append] at htrue
  exact h (List.prefix_of_prefix_length_le htrue (List.prefix_append _ _) hlen)

theorem exitCode_timeout_err : exitCode "--timeout: invalid number" = 2 := by decide

theorem exitCode_count_err : exitCode "--count: invalid number" = 2 := by decide

theorem exitCode_concurrency_err : exitCode "--concurrency: invalid number" = 2 := by decide

theorem exitCode_range_usage : exitCode "Usage: ipchk -r <start_ipv4> <end_ipv4>" = 0 := by
  decide

theorem exitCode_usage (p : String) : exitCode (usage p) = 0 := by
  rw [exitCode, starts_with_usage]
  rfl

theorem exitCode_range_start (s : String) :
    exitCode ("range: start must be IPv4: " ++ s) = 2 := by
  rw [exitCode, starts_with_append_false _ _ (by decide) (by decide)]
  rfl

theorem exitCode_range_end (s : String) :
    exitCode ("range: end must be IPv4: " ++ s) = 2 := by
  rw [exitCode, starts_with_append_false _ _ (by decide) (by decide)]
  rfl

/-! ## The claims -/

/-- C1: the final output lines are ordered ascending by the 32-bit
big-endian numeric value of the address: the printed sequence is a
permutation of the collected results that is pairwise non-decreasing in
`sort_key`, whatever order the probe results arrived in, so for any two
IPv4 targets with `v4_key a < v4_key b`, `a`'s line precedes `b`'s. -/
theorem C1_report_sorted_ascending (rs : List PingResult) :
    sortResults rs ~ rs ∧
    (sortResults rs).Pairwise (fun x y => x.sort_key ≤ y.sort_key) ∧
    (∀ (i j : Nat) (x y : PingResult),
      (sortResults rs)[i]? = some x → (sortResults rs)[j]? = some y →
      x.sort_key < y.sort_key → i < j) := by
  have hpair : (sortResults rs).Pairwise (fun x y => x.sort_key ≤ y.sort_key) := by
    have h := List.sorted_mergeSort keyLE_trans keyLE_total rs
    exact h.imp (fun hb => by simpa [keyLE] using hb)
  refine ⟨List.mergeSort_perm rs keyLE, hpair, ?_⟩
  intro i j x y hix hjy hlt
  by_contra hcon
  push_neg at hcon
  obtain ⟨hi, hxe⟩ := List.getElem?_eq_some_iff.mp hix
  obtain ⟨hj, hye⟩ := List.getElem?_eq_some_iff.mp hjy
  rcases Nat.eq_or_lt_of_le hcon with heq | hlt2
  · subst heq
    rw [hxe] at hye
    subst hye
    omega
  · have hle := (List.pairwise_iff_getElem.mp hpair) j i hj hi hlt2
    rw [hxe, hye] at hle
    omega

/-- C1 witness: a concrete already-sorted arrival list; the strictly
smaller key occupies the earlier output position. -/
theorem C1_report_sorted_ascending_witness :
    (sortResults [⟨"10.0.0.1", 3⟩, ⟨"10.0.0.2", 5⟩])[0]? = some ⟨"10.0.0.1", 3⟩
  ∧ (sortResults [⟨"10.0.0.1", 3⟩, ⟨"10.0.0.2", 5⟩])[1]? = some ⟨"10.0.0.2", 5⟩
  ∧ (0 : Nat) < 1 := by
  have hs : sortResults [⟨"10.0.0.1", 3⟩, ⟨"10.0.0.2", 5⟩] =
      [⟨"10.0.0.1", 3⟩, ⟨"10.0.0.2", 5⟩] := by
    simp only [sortResults]
    exact List.mergeSort_of_sorted (by decide)
  refine ⟨by rw [hs]; rfl, by rw [hs]; rfl, ?_⟩
  exact (C1_report_sorted_ascending [⟨"10.0.0.1", 3⟩, ⟨"10.0.0.2", 5⟩]).2.2 0 1
    ⟨"10.0.0.1", 3⟩ ⟨"10.0.0.2", 5⟩ (by rw [hs]; rfl) (by rw [hs]; rfl) (by decide)

/-- C9: the final sort is stable with respect to the collector's arrival
sequence: for every key `k`, the outcomes keyed `k` appear in the output
in exactly their arrival order (in particular all Invalid and
UnsupportedFamily outcomes, keyed 0). -/
theorem C9_sort_stable_on_equal_keys (rs : List PingResult) (k : Nat) :
    (sortResults rs).filter (fun r => r.sort_key == k) =
      rs.filter (fun r => r.sort_key == k) := by
  set p : PingResult → Bool := fun r => r.sort_key == k with hp
  have hpair : (rs.filter p).Pairwise (fun x y => keyLE x y) := by
    apply List.pairwise_of_forall_mem_list
    intro x hx y hy
    have hx2 := (List.mem_filter.mp hx).2
    have hy2 := (List.mem_filter.mp hy).2
    simp only [hp, beq_iff_eq] at hx2 hy2
    simp [keyLE, hx2, hy2]
  have hsub : rs.filter p <+ sortResults rs :=
    List.sublist_mergeSort keyLE_trans keyLE_total hpair (List.filter_sublist rs)
  have hsub2 : rs.filter p <+ (sortResults rs).filter p := by
    have h2 := hsub.filter p
    rwa [List.filter_filter,
      show (fun x => p x && p x) = p from by funext x; cases p x <;> simp] at h2
  have hlen : ((sortResults rs).filter p).length = (rs.filter p).length :=
    ((List.mergeSort_perm rs keyLE).filter p).length_eq
  exact (hsub2.eq_of_length hlen.symm).symm

/-- C2: every `ping_one` call sends exactly one `PingResult` on every
control path, so however the concurrent sends interleave into the
collector's arrival list, the number of output lines equals the number
of targets enumerated. -/
theorem C2_exactly_one_outcome_per_target (parse : String → Option IpAddr)
    (os : List String → Except Unit Bool) (t : Duration) (c : Nat)
    (targets : List String) (arrivals : List PingResult)
    (h : arrivals ~ allSends parse os t c targets) :
    (∀ ip, ((ping_one parse os ip t c).1).length = 1) ∧
    sortResults arrivals ~ allSends parse os t c targets ∧
    (sortResults arrivals).length = targets.length := by
  refine ⟨fun ip => ping_one_length parse os ip t c,
    (List.mergeSort_perm arrivals keyLE).trans h, ?_⟩
  rw [sortResults, List.length_mergeSort, h.length_eq, allSends_length]

/-- C2 witness at a concrete run of two targets. -/
theorem C2_exactly_one_outcome_per_target_witness :
    (sortResults (allSends (fun _ => none) (fun _ => .error ()) ⟨0⟩ 0
      ["a", "b"])).length = 2 :=
  (C2_exactly_one_outcome_per_target (fun _ => none) (fun _ => .error ()) ⟨0⟩ 0
    ["a", "b"] _ (List.Perm.refl _)).2.2

/-- C3 (code bug): for `end = 255.255.255.255` the iterator does NOT
stop after emitting `end`: the wrapping increment re-enters the range, so
the single-element range `[255.255.255.255, 255.255.255.255]` emits
`255.255.255.255, 0.0.0.0, 0.0.0.1, …` and never exhausts (`takeN`
returns `n` elements for every fuel `n`), violating the spec's
"increment stops after emitting the element equal to `end`". -/
theorem C3_range_overflow_at_max :
    IpRange.takeN 3 (IpRange.new ⟨255, 255, 255, 255⟩ ⟨255, 255, 255, 255⟩) =
      [⟨255, 255, 255, 255⟩, ⟨0, 0, 0, 0⟩, ⟨0, 0, 0, 1⟩] ∧
    ∀ n, (IpRange.takeN n
      (IpRange.new ⟨255, 255, 255, 255⟩ ⟨255, 255, 255, 255⟩)).length = n := by
  constructor
  · decide
  · intro n
    have hnew : IpRange.new ⟨255, 255, 255, 255⟩ ⟨255, 255, 255, 255⟩ =
        { cur := 2 ^ 32 - 1, end_ := 2 ^ 32 - 1 } := by decide
    rw [hnew]
    exact takeN_maxed n (2 ^ 32 - 1) (by norm_num)

/-- C5: classification precedes probing: an unparseable string yields the
Invalid outcome with sort key 0, an IPv6 parse yields the
UnsupportedFamily outcome with sort key 0 — in both cases without
invoking the reachability capability (flag `false`, result independent of
`os`) — and only an IPv4 parse reaches the prober (flag `true`), with
sort key `v4_key`. -/
theorem C5_classification_precedes_probing (parse : String → Option IpAddr)
    (os : List String → Except Unit Bool) (s : String) (t : Duration) (c : Nat) :
    (parse s = none →
      ping_one parse os s t c =
        ([{ msg := "\x1b[0m" ++ s ++ "\x1b[0m is \x1b[1m\x1b[31minvalid\x1b[0m",
            sort_key := 0 }], false))
  ∧ (parse s = some .V6 →
      ping_one parse os s t c =
        ([{ msg := "\x1b[0m" ++ s ++ "\x1b[0m is \x1b[33mIPv6 currently unsupported\x1b[0m",
            sort_key := 0 }], false))
  ∧ (∀ v4, parse s = some (.V4 v4) →
      (ping_one parse os s t c).2 = true ∧
      ((ping_one parse os s t c).1).map PingResult.sort_key = [v4_key v4]) := by
  refine ⟨fun h => by simp [ping_one, h], fun h => by simp [ping_one, h],
    fun v4 h => by simp [ping_one, h]⟩

/-- C5 witness: the spec's own test vectors `"not-an-ip"` and `"::1"`,
plus an IPv4 target. -/
theorem C5_classification_precedes_probing_witness :
    ping_one (fun _ => none) (fun _ => .ok true) "not-an-ip" ⟨2000⟩ 4 =
      ([{ msg := "\x1b[0m" ++ "not-an-ip" ++ "\x1b[0m is \x1b[1m\x1b[31minvalid\x1b[0m",
          sort_key := 0 }], false)
  ∧ ping_one (fun _ => some .V6) (fun _ => .ok true) "::1" ⟨2000⟩ 4 =
      ([{ msg := "\x1b[0m" ++ "::1" ++ "\x1b[0m is \x1b[33mIPv6 currently unsupported\x1b[0m",
          sort_key := 0 }], false)
  ∧ (ping_one (fun _ => some (.V4 ⟨1, 1, 1, 1⟩)) (fun _ => .ok true) "1.1.1.1" ⟨2000⟩ 4).2
      = true :=
  ⟨(C5_classification_precedes_probing (fun _ => none) (fun _ => .ok true)
      "not-an-ip" ⟨2000⟩ 4).1 rfl,
   (C5_classification_precedes_probing (fun _ => some .V6) (fun _ => .ok true)
      "::1" ⟨2000⟩ 4).2.1 rfl,
   ((C5_classification_precedes_probing (fun _ => some (.V4 ⟨1, 1, 1, 1⟩))
      (fun _ => .ok true) "1.1.1.1" ⟨2000⟩ 4).2.2 ⟨1, 1, 1, 1⟩ rfl).1⟩

/-- C6: the scheduler partitions the target sequence into consecutive
waves: their concatenation is the original sequence, every wave is
nonempty with at most `c` targets, and every wave except possibly the
last has exactly `c`; waves are formed and processed strictly one after
another (`spawn_batch` joins all threads before the loop continues). -/
theorem C6_waves_partition {α : Type} (c : Nat) (l : List α) (hc : 1 ≤ c) :
    (batches c l).flatten = l
  ∧ (∀ w ∈ batches c l, w ≠ [] ∧ w.length ≤ c)
  ∧ (∀ i w, i + 1 < (batches c l).length → (batches c l)[i]? = some w →
      w.length = c) :=
  ⟨batches_flatten_of_le c hc l.length l le_rfl,
   batches_wave_bounds c hc l.length l le_rfl,
   batches_full_waves c hc l.length l le_rfl⟩

/-- C6 witness: wave size 2 over three targets. -/
theorem C6_waves_partition_witness :
    (batches 2 ["a", "b", "c"]).flatten = ["a", "b", "c"] :=
  (C6_waves_partition 2 ["a", "b", "c"] (by decide)).1

/-- C7 counterexample: at endpoints `255.255.255.255` the enumeration is
not the ascending min-to-max inclusive sequence (which would be the
singleton): the iterator wraps and keeps emitting. -/
theorem C7_counterexample_wrap_at_max :
    IpRange.takeN 2 (IpRange.new ⟨255, 255, 255, 255⟩ ⟨255, 255, 255, 255⟩) ≠
      (List.range'
        (min (v4_key ⟨255, 255, 255, 255⟩) (v4_key ⟨255, 255, 255, 255⟩))
        (max (v4_key ⟨255, 255, 255, 255⟩) (v4_key ⟨255, 255, 255, 255⟩) -
          min (v4_key ⟨255, 255, 255, 255⟩) (v4_key ⟨255, 255, 255, 255⟩) + 1)).map
        Ipv4Addr.ofU32 := by
  decide

/-- C7 (amended): endpoint swap is fully commutative — `IpRange::new`
normalizes, so both orders yield the identical iterator state and thus
identical enumerations; and whenever the larger endpoint is below
`255.255.255.255`, that common enumeration is exactly the ascending
numeric interval from `min` to `max` inclusive. -/
theorem C7_range_swap_commutes (x y : Ipv4Addr) :
    IpRange.new x y = IpRange.new y x
  ∧ (∀ fuel, IpRange.takeN fuel (IpRange.new x y) =
      IpRange.takeN fuel (IpRange.new y x))
  ∧ (max (v4_key x) (v4_key y) < 2 ^ 32 - 1 →
      ∀ fuel, max (v4_key x) (v4_key y) - min (v4_key x) (v4_key y) + 1 ≤ fuel →
        IpRange.takeN fuel (IpRange.new x y) =
          (List.range' (min (v4_key x) (v4_key y))
            (max (v4_key x) (v4_key y) - min (v4_key x) (v4_key y) + 1)).map
            Ipv4Addr.ofU32) := by
  refine ⟨IpRange.new_comm x y, fun fuel => by rw [IpRange.new_comm], ?_⟩
  intro hmax fuel hf
  rw [IpRange.new_eq]
  exact takeN_eq_range' fuel _ _ (min_le_max) hmax hf

/-- C7 witness: the spec's example pair `10.0.0.5`, `10.0.0.1`. -/
theorem C7_range_swap_commutes_witness :
    IpRange.takeN 5 (IpRange.new ⟨10, 0, 0, 5⟩ ⟨10, 0, 0, 1⟩) =
      (List.range' (min (v4_key ⟨10, 0, 0, 5⟩) (v4_key ⟨10, 0, 0, 1⟩))
        (max (v4_key ⟨10, 0, 0, 5⟩) (v4_key ⟨10, 0, 0, 1⟩) -
          min (v4_key ⟨10, 0, 0, 5⟩) (v4_key ⟨10, 0, 0, 1⟩) + 1)).map
        Ipv4Addr.ofU32 :=
  (C7_range_swap_commutes ⟨10, 0, 0, 5⟩ ⟨10, 0, 0, 1⟩).2.2 (by decide) 5 (by decide)

/-- C8: every probe-mechanism failure makes the reachability capability
return false: `ping_unix_cmd` is true exactly when the process ran and
exited successfully (so spawn failures and error statuses give false),
the ICMP path returns false when handle creation fails, and for an IPv4
target any two failing environments produce the identical single Down
outcome keyed `v4_key` — never fatal, indistinguishable from genuine
unreachability. -/
theorem C8_probe_failures_collapse_to_down (parse : String → Option IpAddr)
    (os os₂ : List String → Except Unit Bool) (ip : String) (t : Duration) (c : Nat) :
    (ping_unix_cmd os ip t c = true ↔ os (ping_unix_args ip t c) = .ok true)
  ∧ (∀ (echo : Nat → Bool) (cnt : Nat), ping_windows_icmp false echo cnt = false)
  ∧ (∀ v4, parse ip = some (.V4 v4) →
      os (ping_unix_args ip t c) ≠ .ok true →
      os₂ (ping_unix_args ip t c) ≠ .ok true →
      ping_one parse os ip t c = ping_one parse os₂ ip t c
    ∧ ping_one parse os ip t c =
        ([{ msg := "\x1b[0m" ++ ip ++ "\x1b[0m is \x1b[1m\x1b[31mdown\x1b[0m",
            sort_key := v4_key v4 }], true)) := by
  refine ⟨?_, ?_, ?_⟩
  · cases h : os (ping_unix_args ip t c) with
    | error e => simp [ping_unix_cmd, h]
    | ok b => cases b <;> simp [ping_unix_cmd, h]
  · intro echo cnt
    simp [ping_windows_icmp]
  · intro v4 hp h1 h2
    have e1 : ping_unix_cmd os ip t c = false := by
      cases h : os (ping_unix_args ip t c) with
      | error e => simp [ping_unix_cmd, h]
      | ok b =>
        cases b with
        | false => simp [ping_unix_cmd, h]
        | true => exact absurd h h1
    have e2 : ping_unix_cmd os₂ ip t c = false := by
      cases h : os₂ (ping_unix_args ip t c) with
      | error e => simp [ping_unix_cmd, h]
      | ok b =>
        cases b with
        | false => simp [ping_unix_cmd, h]
        | true => exact absurd h h2
    refine ⟨?_, ?_⟩
    · simp [ping_one, hp, e1, e2]
    · simp [ping_one, hp, e1]

/-- C8 witness: a spawn failure (`ping` binary missing) and an
unsuccessful exit status produce the same Down outcome. -/
theorem C8_probe_failures_collapse_to_down_witness :
    ping_one (fun _ => some (.V4 ⟨10, 0, 0, 1⟩)) (fun _ => .error ())
        "10.0.0.1" ⟨2000⟩ 4 =
      ([{ msg := "\x1b[0m" ++ "10.0.0.1" ++ "\x1b[0m is \x1b[1m\x1b[31mdown\x1b[0m",
          sort_key := v4_key ⟨10, 0, 0, 1⟩ }], true) :=
  ((C8_probe_failures_collapse_to_down (fun _ => some (.V4 ⟨10, 0, 0, 1⟩))
      (fun _ => .error ()) (fun _ => .ok false) "10.0.0.1" ⟨2000⟩ 4).2.2
    ⟨10, 0, 0, 1⟩ rfl (by simp) (by simp)).2

/-- C10: on non-macOS unix the per-attempt timeout handed to `ping -W` is
the configured millisecond value truncated to whole seconds with a floor
of 1: below 1000 ms (including the usage example's 750 ms) 1 second is
applied, and 2999 ms is applied as 2 seconds. -/
theorem C10_unix_timeout_truncation (ip : String) (ms count : Nat) :
    ping_unix_args ip (Duration.from_millis ms) count =
      ["-n", "-c", toString count, "-W",
        toString (if ms < 1000 then 1 else ms / 1000), ip]
  ∧ (ms < 1000 → max (Duration.from_millis ms).as_secs 1 = 1)
  ∧ max (Duration.from_millis 750).as_secs 1 = 1
  ∧ max (Duration.from_millis 2999).as_secs 1 = 2 := by
  refine ⟨?_, fun h => ?_, by decide, by decide⟩
  · simp only [ping_unix_args, Duration.as_secs, Duration.from_millis]
    have heq : max (ms / 1000) 1 = if ms < 1000 then 1 else ms / 1000 := by
      rcases Nat.lt_or_ge ms 1000 with h | h
      · rw [if_pos h]
        have h0 : ms / 1000 = 0 := Nat.div_eq_of_lt h
        omega
      · rw [if_neg (by omega)]
        have h1 : 1 ≤ ms / 1000 := (Nat.one_le_div_iff (by omega)).mpr h
        omega
    rw [heq]
  · simp only [Duration.as_secs, Duration.from_millis]
    have h0 : ms / 1000 = 0 := Nat.div_eq_of_lt h
    omega

/-- C10 witness at the usage example's 750 ms. -/
theorem C10_unix_timeout_truncation_witness :
    max (Duration.from_millis 750).as_secs 1 = 1 :=
  (C10_unix_timeout_truncation "1.2.3.4" 750 3).2.1 (by decide)

/-- C4 counterexample: a range invocation without its two positionals is
an argument error, yet the process exits 0 — the error message reuses a
text beginning with "Usage:", which `main` maps to exit code 0. -/
theorem C4_counterexample_missing_positionals_exit_zero :
    mainExit { help := false, timeout_arg := none, count_arg := none,
               concurrency_arg := none, range_flag := true, free := [],
               program := "ipchk" } = 0 := by
  decide

/-- C4 (amended): the process exits 0 on help, on successful completion,
and on missing-positional errors (no addresses in list mode, or a range
invocation without exactly two positionals — their messages begin with
"Usage:", which `main` maps to 0); it exits 2 on malformed IPv4 endpoints
in range mode and on malformed numeric option values. -/
theorem C4_exit_codes (inp : CliInput) :
    (inp.help = true → mainExit inp = 0)
  ∧ (∀ s, inp.help = false → inp.timeout_arg = some s →
      parseRustUInt U64_BOUND s = none → mainExit inp = 2)
  ∧ (∀ s tv, inp.help = false →
      opt_value_from_str U64_BOUND "--timeout" inp.timeout_arg = .ok tv →
      inp.count_arg = some s → parseRustUInt U32_BOUND s = none →
      mainExit inp = 2)
  ∧ (∀ s tv cv, inp.help = false →
      opt_value_from_str U64_BOUND "--timeout" inp.timeout_arg = .ok tv →
      opt_value_from_str U32_BOUND "--count" inp.count_arg = .ok cv →
      inp.concurrency_arg = some s → parseRustUInt U64_BOUND s = none →
      mainExit inp = 2)
  ∧ (∀ tv cv xv, inp.help = false →
      opt_value_from_str U64_BOUND "--timeout" inp.timeout_arg = .ok tv →
      opt_value_from_str U32_BOUND "--count" inp.count_arg = .ok cv →
      opt_value_from_str U64_BOUND "--concurrency" inp.concurrency_arg = .ok xv →
      inp.range_flag = true → inp.free.length ≠ 2 → mainExit inp = 0)
  ∧ (∀ tv cv xv, inp.help = false →
      opt_value_from_str U64_BOUND "--timeout" inp.timeout_arg = .ok tv →
      opt_value_from_str U32_BOUND "--count" inp.count_arg = .ok cv →
      opt_value_from_str U64_BOUND "--concurrency" inp.concurrency_arg = .ok xv →
      inp.range_flag = false → inp.free = [] → mainExit inp = 0)
  ∧ (∀ tv cv xv s e, inp.help = false →
      opt_value_from_str U64_BOUND "--timeout" inp.timeout_arg = .ok tv →
      opt_value_from_str U32_BOUND "--count" inp.count_arg = .ok cv →
      opt_value_from_str U64_BOUND "--concurrency" inp.concurrency_arg = .ok xv →
      inp.range_flag = true → inp.free = [s, e] → parseIpv4 s = none →
      mainExit inp = 2)
  ∧ (∀ tv cv xv s e a4, inp.help = false →
      opt_value_from_str U64_BOUND "--timeout" inp.timeout_arg = .ok tv →
      opt_value_from_str U32_BOUND "--count" inp.count_arg = .ok cv →
      opt_value_from_str U64_BOUND "--concurrency" inp.concurrency_arg = .ok xv →
      inp.range_flag = true → inp.free = [s, e] → parseIpv4 s = some a4 →
      parseIpv4 e = none → mainExit inp = 2)
  ∧ (∀ a, parse_args inp = .ok a → mainExit inp = 0) := by
  refine ⟨?_, ?_, ?_, ?_, ?_, ?_, ?_, ?_, ?_⟩
  · intro hh
    simp [mainExit, parse_args, hh, exitCode_usage]
  · intro s hh ht hp
    have htr : opt_value_from_str U64_BOUND "--timeout" inp.timeout_arg =
        .error "--timeout: invalid number" := by
      simp [opt_value_from_str, ht, hp]
    simp [mainExit, parse_args, hh, htr, exitCode_timeout_err]
  · intro s tv hh ht hc hp
    have hcr : opt_value_from_str U32_BOUND "--count" inp.count_arg =
        .error "--count: invalid number" := by
      simp [opt_value_from_str, hc, hp]
    simp [mainExit, parse_args, hh, ht, hcr, exitCode_count_err]
  · intro s tv cv hh ht hc hx hp
    have hxr : opt_value_from_str U64_BOUND "--concurrency" inp.concurrency_arg =
        .error "--concurrency: invalid number" := by
      simp [opt_value_from_str, hx, hp]
    simp [mainExit, parse_args, hh, ht, hc, hxr, exitCode_concurrency_err]
  · intro tv cv xv hh ht hc hx hr hlen
    rcases hfree : inp.free with _ | ⟨x, _ | ⟨y, _ | ⟨z, rest⟩⟩⟩
    · simp [mainExit, parse_args, hh, ht, hc, hx, hr, hfree, exitCode_range_usage]
    · simp [mainExit, parse_args, hh, ht, hc, hx, hr, hfree, exitCode_range_usage]
    · rw [hfree] at hlen
      simp at hlen
    · simp [mainExit, parse_args, hh, ht, hc, hx, hr, hfree, exitCode_range_usage]
  · intro tv cv xv hh ht hc hx hr hfree
    simp [mainExit, parse_args, hh, ht, hc, hx, hr, hfree, exitCode_usage]
  · intro tv cv xv s e hh ht hc hx hr hfree hp
    simp [mainExit, parse_args, hh, ht, hc, hx, hr, hfree, hp, exitCode_range_start]
  · intro tv cv xv s e a4 hh ht hc hx hr hfree hps hpe
    simp [mainExit, parse_args, hh, ht, hc, hx, hr, hfree, hps, hpe,
      exitCode_range_end]
  · intro a h
    simp [mainExit, h]

/-- C4 witness: help exits 0; a malformed `--timeout` value exits 2; a
malformed range endpoint exits 2; a successful list-mode parse exits 0. -/
theorem C4_exit_codes_witness :
    mainExit { help := true, timeout_arg := none, count_arg := none,
               concurrency_arg := none, range_flag := false, free := [],
               program := "ipchk" } = 0
  ∧ mainExit { help := false, timeout_arg := some "abc", count_arg := none,
               concurrency_arg := none, range_flag := false,
               free := ["1.2.3.4"], program := "ipchk" } = 2
  ∧ mainExit { help := false, timeout_arg := none, count_arg := none,
               concurrency_arg := none, range_flag := true,
               free := ["999.1.2.3", "1.2.3.4"], program := "ipchk" } = 2
  ∧ mainExit { help := false, timeout_arg := none, count_arg := none,
               concurrency_arg := none, range_flag := false,
               free := ["1.2.3.4"], program := "ipchk" } = 0 :=
  ⟨(C4_exit_codes _).1 rfl,
   (C4_exit_codes _).2.1 "abc" rfl rfl (by decide),
   (C4_exit_codes _).2.2.2.2.2.2.1 none none none "999.1.2.3" "1.2.3.4"
     rfl rfl rfl rfl rfl rfl (by decide),
   (C4_exit_codes _).2.2.2.2.2.2.2.2
     { range := none, timeout_ms := 2000, count := 4, concurrency := 128,
       ips := ["1.2.3.4"] } rfl⟩

end Ipchk
